import Mathlib

/-!
Shallow embedding of the Beeftext substitution engine
(`src/Beeftext/BeeftextUtils.cpp`) and proofs of the specification claims.

Strings (`QString`) are modelled as lists of UTF-16 code units (`UStr`).
Physical key state is a function from virtual-key codes to `Bool`.
Every OS-level input-synthesis or clipboard primitive appends one `Event`
to a trace and may raise (modelling an `xmilib::Exception` thrown by a
primitive) according to a failure schedule `failAfter` carried in the
context: the primitive whose trace position equals the scheduled index
throws.  An error carries the machine state at the throw point, so the
`catch`/rethrow logic of `performTextSubstitution` can be modelled
faithfully.
-/

namespace Beeftext

/-- A `QString`, as its list of UTF-16 code units. -/
abbrev UStr := List Nat

/-- Virtual-key code of the left Shift key. -/
def VK_LSHIFT : Nat := 0xA0

/-- Virtual-key code of the right Shift key. -/
def VK_RSHIFT : Nat := 0xA1

/-- Virtual-key code of the left Control key. -/
def VK_LCONTROL : Nat := 0xA2

/-- Virtual-key code of the right Control key. -/
def VK_RCONTROL : Nat := 0xA3

/-- Virtual-key code of the left Alt (menu) key. -/
def VK_LMENU : Nat := 0xA4

/-- Virtual-key code of the right Alt (menu) key. -/
def VK_RMENU : Nat := 0xA5

/-- Virtual-key code of the left Windows key. -/
def VK_LWIN : Nat := 0x5B

/-- Virtual-key code of the right Windows key. -/
def VK_RWIN : Nat := 0x5C

/-- Virtual-key code of the Return (Enter) key. -/
def VK_RETURN : Nat := 0x0D

/-- Virtual-key code of the Left-arrow key. -/
def VK_LEFT : Nat := 0x25

/-- The modifier keys, in the order of the `modifierKeys` list of the source. -/
def modifierKeys : List Nat :=
  [VK_LCONTROL, VK_RCONTROL, VK_LMENU, VK_RMENU, VK_LSHIFT, VK_RSHIFT, VK_LWIN, VK_RWIN]

/-- The unicode object replacement character (`kObjectReplacementChar`). -/
def kObjectReplacementChar : Nat := 0xFFFC

/-- Physical key state: which virtual-key codes are currently down.
`GetKeyState(key) < 0` in the source is modelled as `m key = true`. -/
abbrev Mods := Nat → Bool

/-- Reading the physical state of one key (`GetKeyState(key) < 0`). -/
def getKeyState (m : Mods) (key : Nat) : Bool := m key

/-- Updating the physical state of one key, as the OS does in response to a
synthesized key-up (`b = false`) or key-down (`b = true`) event. -/
def setKey (m : Mods) (key : Nat) (b : Bool) : Mods :=
  fun k => if k = key then b else m k

/-- One observable OS-level effect of the engine. -/
inductive Event where
  | keyDown (key : Nat)
  | keyUp (key : Nat)
  | keyDownAndUp (key : Nat)
  | unicodeKeyDownAndUp (code : Nat)
  | backspaces (count : Nat)
  | clipboardBackup
  | clipboardSetText (t : UStr)
  | clipboardSetHtml (t : UStr)
  | scheduleClipboardRestore (delayMs : Nat)
  | wait (ms : Int)
deriving DecidableEq, Repr

/-- Clipboard content. `other` stands for arbitrary pre-existing content. -/
inductive ClipContent where
  | empty
  | plainText (t : UStr)
  | richHtml (t : UStr)
  | other (tag : Nat)
deriving DecidableEq, Repr

/-- The clipboard: its current content and the backup held by
`ClipboardManager` after `backupClipboard()`. -/
structure Clip where
  content : ClipContent
  backedUp : Option ClipContent
deriving DecidableEq, Repr

/-- The machine state threaded through the engine. -/
structure St where
  hook : Bool
  mods : Mods
  clip : Clip
  trace : List Event

/-- The state of the Windows API calls made by `getActiveExecutableFileName`. -/
structure OsState where
  openProcessOk : Bool
  moduleFileNameOk : Bool
  moduleFilePath : UStr
deriving DecidableEq, Repr

/-- The environment of one substitution call: the exception schedule
(`failAfter = some k` makes the primitive at trace position `k` throw),
the external Qt HTML-to-plain-text conversion
(`QTextDocumentFragment::fromHtml(...).toPlainText()`), the collaborator's
sensitive-application list, the OS state, and the configured
inter-keystroke delay (`PreferencesManager::delayBetweenKeystrokesMs`). -/
structure Ctx where
  failAfter : Option Nat
  htmlToPlain : UStr → UStr
  sensitiveApps : List UStr
  os : OsState
  delayMs : Int

/-- One fallible OS primitive: throws if its trace position is the scheduled
failure point, otherwise applies its state update and appends its event. -/
def prim (ctx : Ctx) (e : Event) (upd : St → St) (s : St) : Except St St :=
  if ctx.failAfter = some s.trace.length then .error s
  else .ok { upd s with trace := s.trace ++ [e] }

/-- Loop of `backupAndReleaseModifierKeys`: for each key of `keys` that is
physically down, record it and synthesize a key-up for it. -/
def braFold (ctx : Ctx) : List Nat → List Nat → St → Except St (List Nat × St)
  | [], acc, s => .ok (acc, s)
  | key :: keys, acc, s =>
    if getKeyState s.mods key then
      match prim ctx (Event.keyUp key) (fun s => { s with mods := setKey s.mods key false }) s with
      | .error s' => .error s'
      | .ok s' => braFold ctx keys (acc ++ [key]) s'
    else
      braFold ctx keys acc s

/-- Embedding of `backupAndReleaseModifierKeys`: retrieve the currently
pressed modifier keys, synthesizing a key-release for each of them, and
return the list of those keys. -/
def backupAndReleaseModifierKeys (ctx : Ctx) (s : St) : Except St (List Nat × St) :=
  braFold ctx modifierKeys [] s

/-- Embedding of `restoreModifierKeys`: synthesize a key-press event for each
key of `keys`, in order. -/
def restoreModifierKeys (ctx : Ctx) (keys : List Nat) (s : St) : Except St St :=
  match keys with
  | [] => .ok s
  | key :: rest => do
    let s ← prim ctx (Event.keyDown key) (fun s => { s with mods := setKey s.mods key true }) s
    restoreModifierKeys ctx rest s

/-- Embedding of `waitBetweenKeystrokes`: sleep for the configured delay when
it is positive. -/
def waitBetweenKeystrokes (ctx : Ctx) (s : St) : St :=
  if 0 < ctx.delayMs then { s with trace := s.trace ++ [Event.wait ctx.delayMs] } else s

/-- Embedding of `snippetToPlainText`: a non-HTML snippet is returned
unchanged; an HTML snippet is converted to plain text and the object
replacement character is removed (`QString::remove`). -/
def snippetToPlainText (htmlToPlain : UStr → UStr) (snippet : UStr) (isHtml : Bool) : UStr :=
  if !isHtml then snippet
  else (htmlToPlain snippet).filter (fun c => c != kObjectReplacementChar)

/-- Embedding of `QDir::fromNativeSeparators`: backslashes become slashes. -/
def fromNativeSeparators (path : UStr) : UStr :=
  path.map (fun c => if c = 0x5C then 0x2F else c)

/-- Embedding of `QFileInfo::fileName`: the part after the last slash. -/
def fileNameOf (path : UStr) : UStr :=
  path.foldl (fun acc c => if c = 0x2F then [] else acc ++ [c]) []

/-- Embedding of `getActiveExecutableFileName`: a null string when
`OpenProcess` fails, the file name of the module path when
`GetModuleFileNameEx` succeeds, and a null string otherwise. -/
def getActiveExecutableFileName (os : OsState) : UStr :=
  if !os.openProcessOk then []
  else if os.moduleFileNameOk then fileNameOf (fromNativeSeparators os.moduleFilePath)
  else []

/-- Modelled from the spec: `SensitiveApplicationManager::isSensitiveApplication`
is declared in a collaborator that is not among the sources under `src/`.
Per the spec it is an opaque membership verdict over a collaborator-owned
list of sensitive application names, and an unresolved (empty) foreground
executable name is treated as not sensitive. -/
def isSensitiveApplication (sensitiveApps : List UStr) (exeName : UStr) : Bool :=
  !exeName.isEmpty && sensitiveApps.contains exeName

/-- Embedding of `QString::toUcs4`: UTF-16 code units to 32-bit code points,
combining surrogate pairs and replacing invalid surrogates with U+FFFD. -/
def toUcs4 : List Nat → List Nat
  | [] => []
  | [c] =>
    if (0xD800 ≤ c ∧ c ≤ 0xDBFF) ∨ (0xDC00 ≤ c ∧ c ≤ 0xDFFF) then [0xFFFD] else [c]
  | c :: c2 :: rest =>
    if 0xD800 ≤ c ∧ c ≤ 0xDBFF then
      if 0xDC00 ≤ c2 ∧ c2 ≤ 0xDFFF then
        (0x10000 + (c - 0xD800) * 0x400 + (c2 - 0xDC00)) :: toUcs4 rest
      else 0xFFFD :: toUcs4 (c2 :: rest)
    else if 0xDC00 ≤ c ∧ c ≤ 0xDFFF then 0xFFFD :: toUcs4 (c2 :: rest)
    else c :: toUcs4 (c2 :: rest)

/-- One iteration of the `printableCharacterCount` loop: subtract 2 for a
zero width joiner, subtract 1 for a Fitzpatrick-scale code point. -/
def pccStep (r : Int) (c : Nat) : Int :=
  let r1 := if c = 0x200D then r - 2 else r
  if 0x1F3FB ≤ c ∧ c ≤ 0x1F3FF then r1 - 1 else r1

/-- Embedding of `printableCharacterCount`: convert to UCS-4, start from the
code-point count, run the per-code-point adjustments, clamp at zero. -/
def printableCharacterCount (str : UStr) : Int :=
  let ucs4 := toUcs4 str
  max 0 (ucs4.foldl pccStep (ucs4.length : Int))

/-- Typing loop of the sensitive-application branch: each character is typed
bracketed by its own modifier capture/restore pair, a line feed as a Return
key chord, any other character as a unicode key event, followed by the
configured inter-keystroke wait. -/
def typeLoop (ctx : Ctx) : UStr → St → Except St St
  | [], s => .ok s
  | c :: rest, s => do
    let (pressedModifiers, s) ← backupAndReleaseModifierKeys ctx s
    let s ←
      if c = 0x0A then prim ctx (Event.keyDownAndUp VK_RETURN) id s
      else prim ctx (Event.unicodeKeyDownAndUp c) id s
    let s ← restoreModifierKeys ctx pressedModifiers s
    typeLoop ctx rest (waitBetweenKeystrokes ctx s)

/-- Cursor-repositioning loop: synthesize `n` Left-arrow key chords. -/
def synthesizeLeftArrows (ctx : Ctx) : Nat → St → Except St St
  | 0, s => .ok s
  | n + 1, s => do
    let s ← prim ctx (Event.keyDownAndUp VK_LEFT) id s
    synthesizeLeftArrows ctx n s

/-- The body of the `try` block of `performTextSubstitution`: erase the
combo, paste (non-sensitive application) or type (sensitive application)
the snippet, then reposition the cursor when requested. -/
def substitutionBody (ctx : Ctx) (charCount : Int) (newText : UStr) (isHtml : Bool)
    (cursorPos : Int) (s : St) : Except St St := do
  let s ← prim ctx (Event.backspaces (max charCount 0).toNat) id s
  let s ←
    if !(isSensitiveApplication ctx.sensitiveApps (getActiveExecutableFileName ctx.os)) then do
      let s ← prim ctx Event.clipboardBackup
        (fun s => { s with clip := { s.clip with backedUp := some s.clip.content } }) s
      let s ←
        if isHtml then
          prim ctx (Event.clipboardSetHtml newText)
            (fun s => { s with clip := { s.clip with content := ClipContent.richHtml newText } }) s
        else
          prim ctx (Event.clipboardSetText newText)
            (fun s => { s with clip := { s.clip with content := ClipContent.plainText newText } }) s
      let (pressedModifiers, s) ← backupAndReleaseModifierKeys ctx s
      let s ← prim ctx (Event.keyDown VK_LCONTROL)
        (fun s => { s with mods := setKey s.mods VK_LCONTROL true }) s
      let s ← prim ctx (Event.keyDownAndUp 0x56) id s
      let s ← prim ctx (Event.keyUp VK_LCONTROL)
        (fun s => { s with mods := setKey s.mods VK_LCONTROL false }) s
      let s ← restoreModifierKeys ctx pressedModifiers s
      pure { s with trace := s.trace ++ [Event.scheduleClipboardRestore 1000] }
    else
      typeLoop ctx (snippetToPlainText ctx.htmlToPlain newText isHtml) s
  if 0 ≤ cursorPos then do
    let (pressedModifiers, s) ← backupAndReleaseModifierKeys ctx s
    let s ← synthesizeLeftArrows ctx
      (max 0 (printableCharacterCount (if isHtml then ctx.htmlToPlain newText else newText)
        - cursorPos)).toNat s
    restoreModifierKeys ctx pressedModifiers s
  else
    pure s

/-- Embedding of `performTextSubstitution`: record the hook state and disable
the hook, run the body, and restore the hook to its recorded state on the
normal exit path and on the exceptional one (the `catch` and rethrow). -/
def performTextSubstitution (ctx : Ctx) (charCount : Int) (newText : UStr) (isHtml : Bool)
    (cursorPos : Int) (s0 : St) : Except St St :=
  let wasKeyboardHookEnabled := s0.hook
  match substitutionBody ctx charCount newText isHtml cursorPos { s0 with hook := false } with
  | .ok s => .ok { s with hook := wasKeyboardHookEnabled }
  | .error s => .error { s with hook := wasKeyboardHookEnabled }

/-- The machine state at exit, for a normal return and for a propagated
exception alike. -/
def resultState : Except St St → St
  | .ok s => s
  | .error s => s

/-- The modifier keys that are physically down, in the order of the source's
`modifierKeys` list: the snapshot `backupAndReleaseModifierKeys` records. -/
def heldModifierKeys (m : Mods) : List Nat :=
  modifierKeys.filter (fun k => m k)

/-- Key state after a run of key-up events for `keys`. -/
def releaseList (m : Mods) (keys : List Nat) : Mods :=
  keys.foldl (fun m k => setKey m k false) m

/-- Key state after a run of key-down events for `keys`. -/
def pressList (m : Mods) (keys : List Nat) : Mods :=
  keys.foldl (fun m k => setKey m k true) m

/-- Expected trace of one `waitBetweenKeystrokes` call. -/
def waitTrace (delayMs : Int) : List Event :=
  if 0 < delayMs then [Event.wait delayMs] else []

/-- Expected trace of typing one character in the sensitive-application
branch: the character's own modifier capture, the key event (a Return chord
for a line feed, a unicode key event otherwise), the modifier restore, and
the inter-keystroke wait. -/
def typeCharSpec (held : List Nat) (delayMs : Int) (c : Nat) : List Event :=
  held.map Event.keyUp ++
    [if c = 0x0A then Event.keyDownAndUp VK_RETURN else Event.unicodeKeyDownAndUp c] ++
    held.map Event.keyDown ++ waitTrace delayMs

/-- Expected trace of the whole typing loop. -/
def typeSpecTrace (held : List Nat) (delayMs : Int) (text : UStr) : List Event :=
  (text.map (typeCharSpec held delayMs)).flatten

/-- Expected trace of the clipboard-paste branch: clipboard backup, then the
clipboard write in native form, then a Control+V chord bracketed by one
modifier capture/restore pair, then the scheduled clipboard restoration. -/
def pasteSpecTrace (held : List Nat) (isHtml : Bool) (newText : UStr) : List Event :=
  Event.clipboardBackup ::
    (if isHtml then Event.clipboardSetHtml newText else Event.clipboardSetText newText) ::
    (held.map Event.keyUp ++
      [Event.keyDown VK_LCONTROL, Event.keyDownAndUp 0x56, Event.keyUp VK_LCONTROL] ++
      held.map Event.keyDown ++ [Event.scheduleClipboardRestore 1000])

/-- Expected trace of the repositioning step: nothing for a negative cursor
position, otherwise one modifier capture/restore pair bracketing the whole
run of Left-arrow chords. -/
def cursorSpecTrace (held : List Nat) (basis : UStr) (cursorPos : Int) : List Event :=
  if 0 ≤ cursorPos then
    held.map Event.keyUp ++
      List.replicate (max 0 (printableCharacterCount basis - cursorPos)).toNat
        (Event.keyDownAndUp VK_LEFT) ++
      held.map Event.keyDown
  else []

/-- Expected trace of one full `performTextSubstitution` call that raises no
exception, starting from modifier state `m`. -/
def expectedTrace (ctx : Ctx) (charCount : Int) (newText : UStr) (isHtml : Bool)
    (cursorPos : Int) (m : Mods) : List Event :=
  Event.backspaces (max charCount 0).toNat ::
    ((if !(isSensitiveApplication ctx.sensitiveApps (getActiveExecutableFileName ctx.os)) then
        pasteSpecTrace (heldModifierKeys m) isHtml newText
      else
        typeSpecTrace (heldModifierKeys m) ctx.delayMs
          (snippetToPlainText ctx.htmlToPlain newText isHtml)) ++
      cursorSpecTrace (heldModifierKeys m)
        (if isHtml then ctx.htmlToPlain newText else newText) cursorPos)

/-- Expected clipboard at exit of an exception-free call: overwritten with the
replacement in native form, the prior content backed up, in the paste branch;
untouched in the typing branch. -/
def expectedClip (ctx : Ctx) (newText : UStr) (isHtml : Bool) (cl : Clip) : Clip :=
  if !(isSensitiveApplication ctx.sensitiveApps (getActiveExecutableFileName ctx.os)) then
    ⟨if isHtml then ClipContent.richHtml newText else ClipContent.plainText newText,
      some cl.content⟩
  else cl

/-- Number of Left-arrow chords in a trace. -/
def leftArrowCount (t : List Event) : Nat :=
  t.countP (fun e => e == Event.keyDownAndUp VK_LEFT)

/-- Number of unicode character key events in a trace. -/
def unicodeKeyCount (t : List Event) : Nat :=
  (t.map (fun e => match e with | Event.unicodeKeyDownAndUp _ => 1 | _ => 0)).sum

/-- Total number of backspace key events synthesized in a trace. -/
def backspacesSynthesized (t : List Event) : Nat :=
  (t.map (fun e => match e with | Event.backspaces n => n | _ => 0)).sum

/-- Whether an event touches the clipboard. -/
def isClipboardOp : Event → Bool
  | Event.clipboardBackup => true
  | Event.clipboardSetText _ => true
  | Event.clipboardSetHtml _ => true
  | Event.scheduleClipboardRestore _ => true
  | _ => false

/-- Number of zero-width-joiner code points in a UCS-4 sequence. -/
def zwjCount (l : List Nat) : Nat := l.count 0x200D

/-- Number of Fitzpatrick-range code points in a UCS-4 sequence. -/
def fitzCount (l : List Nat) : Nat :=
  l.countP (fun c => decide (0x1F3FB ≤ c ∧ c ≤ 0x1F3FF))

/-- A modifier capture immediately followed by the matching restore. -/
def modifierRoundTrip (ctx : Ctx) (s : St) : Except St St :=
  backupAndReleaseModifierKeys ctx s >>= fun p => restoreModifierKeys ctx p.1 p.2

/-- Sample modifier state with no key held. -/
def noKeyHeld : Mods := fun _ => false

/-- Sample pre-existing clipboard content. -/
def sampleClip : Clip := ⟨ClipContent.other 0, none⟩

/-- Sample OS state resolving the foreground executable name to "a". -/
def sampleOsA : OsState := ⟨true, true, [0x61]⟩

/-- The string "hello" (its printable character count is 5). -/
def helloStr : UStr := [0x68, 0x65, 0x6C, 0x6C, 0x6F]

/-- Sample initial machine state: hook enabled, no key held, empty trace. -/
def sampleStateA : St := ⟨true, noKeyHeld, sampleClip, []⟩

/-- Sample context whose sensitivity verdict for `sampleOsA` is negative. -/
def ctxPasteSample : Ctx := ⟨none, fun _ => [], [], sampleOsA, 0⟩

/-- Sample context whose sensitivity verdict for `sampleOsA` is positive. -/
def ctxTypeSample : Ctx := ⟨none, fun _ => [0x48, 0x0A], [[0x61]], sampleOsA, 0⟩

/-- Sample context for a sensitive application where the HTML rendering of the
replacement contains an embedded-image object replacement character. -/
def ctxImageSample : Ctx :=
  ⟨none, fun _ => [0x41, kObjectReplacementChar, 0x42], [[0x61]], sampleOsA, 0⟩

theorem prim_none {ctx : Ctx} (hf : ctx.failAfter = none) (e : Event) (upd : St → St)
    (s : St) : prim ctx e upd s = .ok { upd s with trace := s.trace ++ [e] } := by
  simp [prim, hf]

theorem setKey_self (m : Mods) (key : Nat) (b : Bool) : setKey m key b key = b := by
  simp [setKey]

theorem setKey_other (m : Mods) (key k : Nat) (b : Bool) (h : k ≠ key) :
    setKey m key b k = m k := by
  simp [setKey, h]

theorem releaseList_apply (keys : List Nat) : ∀ (m : Mods) (k : Nat),
    releaseList m keys k = if k ∈ keys then false else m k := by
  induction keys with
  | nil => intro m k; simp [releaseList]
  | cons key keys ih =>
    intro m k
    show releaseList (setKey m key false) keys k = _
    rw [ih]
    by_cases hk : k ∈ keys
    · simp [hk]
    · by_cases hkey : k = key
      · subst hkey; simp [hk, setKey_self]
      · simp [hk, hkey, setKey_other m key k false hkey]

theorem pressList_apply (keys : List Nat) : ∀ (m : Mods) (k : Nat),
    pressList m keys k = if k ∈ keys then true else m k := by
  induction keys with
  | nil => intro m k; simp [pressList]
  | cons key keys ih =>
    intro m k
    show pressList (setKey m key true) keys k = _
    rw [ih]
    by_cases hk : k ∈ keys
    · simp [hk]
    · by_cases hkey : k = key
      · subst hkey; simp [hk, setKey_self]
      · simp [hk, hkey, setKey_other m key k true hkey]

theorem mem_heldModifierKeys {m : Mods} {k : Nat} :
    k ∈ heldModifierKeys m ↔ k ∈ modifierKeys ∧ m k = true := by
  simp [heldModifierKeys, List.mem_filter]

theorem roundtrip_mods (m : Mods) :
    pressList (releaseList m (heldModifierKeys m)) (heldModifierKeys m) = m := by
  funext k
  rw [pressList_apply, releaseList_apply]
  by_cases hk : k ∈ heldModifierKeys m
  · simp [hk, (mem_heldModifierKeys.mp hk).2]
  · simp [hk]

theorem ok_bind {ε α β : Type} (a : α) (f : α → Except ε β) :
    (Except.ok a : Except ε α) >>= f = f a := rfl

theorem error_bind {ε α β : Type} (e : ε) (f : α → Except ε β) :
    (Except.error e : Except ε α) >>= f = Except.error e := rfl

theorem braFold_none {ctx : Ctx} (hf : ctx.failAfter = none) :
    ∀ (keys : List Nat), keys.Nodup → ∀ (acc : List Nat) (s : St),
    braFold ctx keys acc s =
      .ok (acc ++ keys.filter (fun k => s.mods k),
        { s with mods := releaseList s.mods (keys.filter (fun k => s.mods k)),
                 trace := s.trace ++ (keys.filter (fun k => s.mods k)).map Event.keyUp }) := by
  intro keys
  induction keys with
  | nil => intro _ acc s; simp [braFold, releaseList]
  | cons key keys ih =>
    intro hnd acc s
    obtain ⟨hkey, hnd'⟩ := List.nodup_cons.mp hnd
    by_cases hmk : s.mods key
    · rw [braFold, prim_none hf]
      simp only [getKeyState, hmk, if_true]
      rw [ih hnd']
      have hcongr : keys.filter (fun k => setKey s.mods key false k) =
          keys.filter (fun k => s.mods k) := by
        apply List.filter_congr
        intro k hk
        rw [setKey_other s.mods key k false (fun h => hkey (h ▸ hk))]
      simp only [hcongr]
      have hfilter : (key :: keys).filter (fun k => s.mods k) =
          key :: keys.filter (fun k => s.mods k) := by
        simp [List.filter_cons, hmk]
      rw [hfilter]
      simp [releaseList, List.append_assoc]
    · rw [braFold]
      simp only [getKeyState, hmk, if_false, Bool.false_eq_true]
      rw [ih hnd']
      have hfilter : (key :: keys).filter (fun k => s.mods k) =
          keys.filter (fun k => s.mods k) := by
        simp [List.filter_cons, hmk]
      rw [hfilter]

theorem modifierKeys_nodup : modifierKeys.Nodup := by
  simp [modifierKeys, VK_LCONTROL, VK_RCONTROL, VK_LMENU, VK_RMENU, VK_LSHIFT, VK_RSHIFT,
    VK_LWIN, VK_RWIN]

theorem backupAndReleaseModifierKeys_none {ctx : Ctx} (hf : ctx.failAfter = none) (s : St) :
    backupAndReleaseModifierKeys ctx s =
      .ok (heldModifierKeys s.mods,
        { s with mods := releaseList s.mods (heldModifierKeys s.mods),
                 trace := s.trace ++ (heldModifierKeys s.mods).map Event.keyUp }) := by
  rw [backupAndReleaseModifierKeys, braFold_none hf modifierKeys modifierKeys_nodup]
  rfl

theorem restoreModifierKeys_none {ctx : Ctx} (hf : ctx.failAfter = none) :
    ∀ (keys : List Nat) (s : St),
    restoreModifierKeys ctx keys s =
      .ok { s with mods := pressList s.mods keys,
                   trace := s.trace ++ keys.map Event.keyDown } := by
  intro keys
  induction keys with
  | nil => intro s; simp [restoreModifierKeys, pressList]
  | cons key keys ih =>
    intro s
    rw [restoreModifierKeys]
    simp only [prim_none hf, ok_bind]
    rw [ih]
    simp [pressList, List.append_assoc]

theorem waitBetweenKeystrokes_eq (ctx : Ctx) (s : St) :
    waitBetweenKeystrokes ctx s = { s with trace := s.trace ++ waitTrace ctx.delayMs } := by
  by_cases h : 0 < ctx.delayMs <;> simp [waitBetweenKeystrokes, waitTrace, h]

theorem typeSpecTrace_cons (held : List Nat) (delayMs : Int) (c : Nat) (rest : UStr) :
    typeSpecTrace held delayMs (c :: rest) =
      typeCharSpec held delayMs c ++ typeSpecTrace held delayMs rest := by
  simp [typeSpecTrace]

theorem typeLoop_none {ctx : Ctx} (hf : ctx.failAfter = none) :
    ∀ (text : UStr) (s : St),
    typeLoop ctx text s =
      .ok { s with trace :=
        s.trace ++ typeSpecTrace (heldModifierKeys s.mods) ctx.delayMs text } := by
  intro text
  induction text with
  | nil => intro s; simp [typeLoop, typeSpecTrace]
  | cons c rest ih =>
    intro s
    rw [typeLoop]
    rw [backupAndReleaseModifierKeys_none hf]
    simp only [ok_bind]
    by_cases hc : c = 0x0A
    · simp only [hc, if_true, prim_none hf, ok_bind, restoreModifierKeys_none hf,
        waitBetweenKeystrokes_eq]
      rw [ih]
      simp only [roundtrip_mods]
      simp [typeSpecTrace_cons, typeCharSpec, hc, List.append_assoc, roundtrip_mods]
    · simp only [hc, if_false, prim_none hf, ok_bind, restoreModifierKeys_none hf,
        waitBetweenKeystrokes_eq]
      rw [ih]
      simp only [roundtrip_mods]
      simp [typeSpecTrace_cons, typeCharSpec, hc, List.append_assoc, roundtrip_mods]

theorem paste_mods_roundtrip (m : Mods) :
    pressList (setKey (setKey (releaseList m (heldModifierKeys m)) VK_LCONTROL true)
        VK_LCONTROL false) (heldModifierKeys m) = m := by
  funext k
  rw [pressList_apply]
  by_cases hk : k ∈ heldModifierKeys m
  · simp [hk, (mem_heldModifierKeys.mp hk).2]
  · simp only [hk, if_false]
    by_cases hc : k = VK_LCONTROL
    · subst hc
      rw [setKey_self]
      have hmem : VK_LCONTROL ∈ modifierKeys := by simp [modifierKeys]
      rcases hval : m VK_LCONTROL with _ | _
      · rfl
      · exact absurd (mem_heldModifierKeys.mpr ⟨hmem, hval⟩) hk
    · rw [setKey_other _ _ _ _ hc, setKey_other _ _ _ _ hc, releaseList_apply]
      simp [hk]

theorem synthesizeLeftArrows_none {ctx : Ctx} (hf : ctx.failAfter = none) :
    ∀ (n : Nat) (s : St),
    synthesizeLeftArrows ctx n s =
      .ok { s with trace :=
        s.trace ++ List.replicate n (Event.keyDownAndUp VK_LEFT) } := by
  intro n
  induction n with
  | zero => intro s; simp [synthesizeLeftArrows]
  | succ n ih =>
    intro s
    rw [synthesizeLeftArrows]
    simp only [prim_none hf, ok_bind]
    rw [ih]
    simp [List.replicate_succ, List.append_assoc]

theorem substitutionBody_none {ctx : Ctx} (hf : ctx.failAfter = none) (charCount : Int)
    (newText : UStr) (isHtml : Bool) (cursorPos : Int) (s : St) :
    substitutionBody ctx charCount newText isHtml cursorPos s =
      .ok { s with clip := expectedClip ctx newText isHtml s.clip,
                   trace := s.trace ++
                     expectedTrace ctx charCount newText isHtml cursorPos s.mods } := by
  rw [substitutionBody]
  simp only [prim_none hf, ok_bind]
  cases hsens : isSensitiveApplication ctx.sensitiveApps (getActiveExecutableFileName ctx.os)
  · simp only [hsens, Bool.not_false, if_true, prim_none hf, ok_bind]
    rcases isHtml with _ | _
    · simp only [Bool.false_eq_true, if_false, prim_none hf, ok_bind,
        backupAndReleaseModifierKeys_none hf, restoreModifierKeys_none hf]
      by_cases hpos : (0 : Int) ≤ cursorPos
      · simp only [hpos, if_true, backupAndReleaseModifierKeys_none hf, ok_bind,
          synthesizeLeftArrows_none hf, restoreModifierKeys_none hf]
        simp [expectedClip, expectedTrace, cursorSpecTrace, pasteSpecTrace, hsens, hpos,
          paste_mods_roundtrip, roundtrip_mods, List.append_assoc]
      · simp only [hpos, if_false]
        simp [expectedClip, expectedTrace, cursorSpecTrace, pasteSpecTrace, hsens, hpos,
          paste_mods_roundtrip, List.append_assoc, ok_bind, pure, Except.pure]
    · simp only [if_true, prim_none hf, ok_bind,
        backupAndReleaseModifierKeys_none hf, restoreModifierKeys_none hf]
      by_cases hpos : (0 : Int) ≤ cursorPos
      · simp only [hpos, if_true, backupAndReleaseModifierKeys_none hf, ok_bind,
          synthesizeLeftArrows_none hf, restoreModifierKeys_none hf]
        simp [expectedClip, expectedTrace, cursorSpecTrace, pasteSpecTrace, hsens, hpos,
          paste_mods_roundtrip, roundtrip_mods, List.append_assoc]
      · simp only [hpos, if_false]
        simp [expectedClip, expectedTrace, cursorSpecTrace, pasteSpecTrace, hsens, hpos,
          paste_mods_roundtrip, List.append_assoc, ok_bind, pure, Except.pure]
  · simp only [hsens, Bool.not_true, Bool.false_eq_true, if_false]
    rw [typeLoop_none hf]
    simp only [ok_bind]
    by_cases hpos : (0 : Int) ≤ cursorPos
    · simp only [hpos, if_true, backupAndReleaseModifierKeys_none hf, ok_bind,
        synthesizeLeftArrows_none hf, restoreModifierKeys_none hf]
      simp [expectedClip, expectedTrace, cursorSpecTrace, hsens, hpos,
        roundtrip_mods, List.append_assoc]
    · simp only [hpos, if_false]
      simp [expectedClip, expectedTrace, cursorSpecTrace, hsens, hpos,
        List.append_assoc, ok_bind, pure, Except.pure]

theorem performTextSubstitution_none {ctx : Ctx} (hf : ctx.failAfter = none)
    (charCount : Int) (newText : UStr) (isHtml : Bool) (cursorPos : Int) (s0 : St) :
    performTextSubstitution ctx charCount newText isHtml cursorPos s0 =
      .ok { s0 with clip := expectedClip ctx newText isHtml s0.clip,
                    trace := s0.trace ++
                      expectedTrace ctx charCount newText isHtml cursorPos s0.mods } := by
  rw [performTextSubstitution, substitutionBody_none hf]

theorem mem_typeCharSpec {e : Event} {held : List Nat} {d : Int} {c : Nat}
    (he : e ∈ typeCharSpec held d c) :
    (∃ k, e = Event.keyUp k) ∨ (∃ k, e = Event.keyDown k) ∨
    e = Event.keyDownAndUp VK_RETURN ∨ (∃ u, e = Event.unicodeKeyDownAndUp u) ∨
    (∃ ms, e = Event.wait ms) := by
  simp only [typeCharSpec, waitTrace, List.mem_append] at he
  rcases he with ((h | h) | h) | h
  · obtain ⟨k, _, rfl⟩ := List.mem_map.mp h
    exact Or.inl ⟨k, rfl⟩
  · rw [List.mem_singleton] at h
    by_cases hc : c = 0x0A
    · simp only [hc, if_true] at h
      exact Or.inr (Or.inr (Or.inl h))
    · simp only [hc, if_false] at h
      exact Or.inr (Or.inr (Or.inr (Or.inl ⟨c, h⟩)))
  · obtain ⟨k, _, rfl⟩ := List.mem_map.mp h
    exact Or.inr (Or.inl ⟨k, rfl⟩)
  · split at h
    · rw [List.mem_singleton] at h
      exact Or.inr (Or.inr (Or.inr (Or.inr ⟨d, h⟩)))
    · exact absurd h (List.not_mem_nil e)

theorem mem_typeSpecTrace {e : Event} {held : List Nat} {d : Int} {text : UStr}
    (he : e ∈ typeSpecTrace held d text) :
    (∃ k, e = Event.keyUp k) ∨ (∃ k, e = Event.keyDown k) ∨
    e = Event.keyDownAndUp VK_RETURN ∨ (∃ u, e = Event.unicodeKeyDownAndUp u) ∨
    (∃ ms, e = Event.wait ms) := by
  rw [typeSpecTrace, List.mem_flatten] at he
  obtain ⟨l, hl, hel⟩ := he
  obtain ⟨c, _, rfl⟩ := List.mem_map.mp hl
  exact mem_typeCharSpec hel

theorem mem_pasteSpecTrace {e : Event} {held : List Nat} {isHtml : Bool} {t : UStr}
    (he : e ∈ pasteSpecTrace held isHtml t) :
    e = Event.clipboardBackup ∨ e = Event.clipboardSetHtml t ∨ e = Event.clipboardSetText t ∨
    (∃ k, e = Event.keyUp k) ∨ (∃ k, e = Event.keyDown k) ∨
    e = Event.keyDownAndUp 0x56 ∨ e = Event.scheduleClipboardRestore 1000 := by
  simp only [pasteSpecTrace, List.mem_cons, List.mem_append] at he
  rcases he with h | h | ((h | h) | h) | h
  · exact Or.inl h
  · rcases isHtml with _ | _
    · simp only [Bool.false_eq_true, if_false] at h
      exact Or.inr (Or.inr (Or.inl h))
    · simp only [if_true] at h
      exact Or.inr (Or.inl h)
  · obtain ⟨k, _, rfl⟩ := List.mem_map.mp h
    exact Or.inr (Or.inr (Or.inr (Or.inl ⟨k, rfl⟩)))
  · rcases h with h | h | h | h
    · exact Or.inr (Or.inr (Or.inr (Or.inr (Or.inl ⟨VK_LCONTROL, h⟩))))
    · exact Or.inr (Or.inr (Or.inr (Or.inr (Or.inr (Or.inl h)))))
    · exact Or.inr (Or.inr (Or.inr (Or.inl ⟨VK_LCONTROL, h⟩)))
    · exact absurd h (List.not_mem_nil e)
  · obtain ⟨k, _, rfl⟩ := List.mem_map.mp h
    exact Or.inr (Or.inr (Or.inr (Or.inr (Or.inl ⟨k, rfl⟩))))
  · rcases h with h | h
    · exact Or.inr (Or.inr (Or.inr (Or.inr (Or.inr (Or.inr h)))))
    · exact absurd h (List.not_mem_nil e)

theorem mem_cursorSpecTrace {e : Event} {held : List Nat} {basis : UStr} {p : Int}
    (he : e ∈ cursorSpecTrace held basis p) :
    (∃ k, e = Event.keyUp k) ∨ (∃ k, e = Event.keyDown k) ∨
    e = Event.keyDownAndUp VK_LEFT := by
  rw [cursorSpecTrace] at he
  split at he
  · simp only [List.mem_append] at he
    rcases he with (h | h) | h
    · obtain ⟨k, _, rfl⟩ := List.mem_map.mp h
      exact Or.inl ⟨k, rfl⟩
    · rw [List.eq_of_mem_replicate h]
      exact Or.inr (Or.inr rfl)
    · obtain ⟨k, _, rfl⟩ := List.mem_map.mp h
      exact Or.inr (Or.inl ⟨k, rfl⟩)
  · exact absurd he (List.not_mem_nil e)

theorem countP_replicate_evt (p : Event → Bool) (a : Event) (n : Nat) :
    (List.replicate n a).countP p = if p a then n else 0 := by
  induction n with
  | zero => simp
  | succ n ih =>
    rw [List.replicate_succ, List.countP_cons, ih]
    by_cases h : p a <;> simp [h]

theorem typeSpecTrace_no_clip (held : List Nat) (d : Int) (text : UStr) :
    (typeSpecTrace held d text).countP isClipboardOp = 0 := by
  rw [List.countP_eq_zero]
  intro e he
  rcases mem_typeSpecTrace he with ⟨k, rfl⟩ | ⟨k, rfl⟩ | rfl | ⟨u, rfl⟩ | ⟨ms, rfl⟩ <;>
    simp [isClipboardOp]

theorem cursorSpecTrace_no_clip (held : List Nat) (basis : UStr) (p : Int) :
    (cursorSpecTrace held basis p).countP isClipboardOp = 0 := by
  rw [List.countP_eq_zero]
  intro e he
  rcases mem_cursorSpecTrace he with ⟨k, rfl⟩ | ⟨k, rfl⟩ | rfl <;> simp [isClipboardOp]

theorem typeSpecTrace_no_left (held : List Nat) (d : Int) (text : UStr) :
    leftArrowCount (typeSpecTrace held d text) = 0 := by
  rw [leftArrowCount, List.countP_eq_zero]
  intro e he
  rcases mem_typeSpecTrace he with ⟨k, rfl⟩ | ⟨k, rfl⟩ | rfl | ⟨u, rfl⟩ | ⟨ms, rfl⟩ <;>
    simp [VK_RETURN, VK_LEFT]

theorem pasteSpecTrace_no_left (held : List Nat) (isHtml : Bool) (t : UStr) :
    leftArrowCount (pasteSpecTrace held isHtml t) = 0 := by
  rw [leftArrowCount, List.countP_eq_zero]
  intro e he
  rcases mem_pasteSpecTrace he with rfl | rfl | rfl | ⟨k, rfl⟩ | ⟨k, rfl⟩ | rfl | rfl <;>
    simp [VK_LEFT]

theorem cursorSpecTrace_left (held : List Nat) (basis : UStr) (p : Int) :
    leftArrowCount (cursorSpecTrace held basis p) =
      if 0 ≤ p then (max 0 (printableCharacterCount basis - p)).toNat else 0 := by
  rw [cursorSpecTrace, leftArrowCount]
  split
  · have h1 : held.countP ((fun e => e == Event.keyDownAndUp VK_LEFT) ∘ Event.keyUp) = 0 := by
      rw [List.countP_eq_zero]
      intro k _
      simp [Function.comp]
    have h2 : held.countP ((fun e => e == Event.keyDownAndUp VK_LEFT) ∘ Event.keyDown) = 0 := by
      rw [List.countP_eq_zero]
      intro k _
      simp [Function.comp]
    simp [List.countP_append, countP_replicate_evt, h1, h2]
  · simp

theorem leftArrowCount_cons_backspaces (n : Nat) (l : List Event) :
    leftArrowCount (Event.backspaces n :: l) = leftArrowCount l := by
  simp [leftArrowCount, List.countP_cons]

theorem leftArrowCount_append (a b : List Event) :
    leftArrowCount (a ++ b) = leftArrowCount a + leftArrowCount b := by
  simp [leftArrowCount, List.countP_append]

theorem expectedTrace_left (ctx : Ctx) (c : Int) (t : UStr) (h : Bool) (p : Int) (m : Mods) :
    leftArrowCount (expectedTrace ctx c t h p m) =
      if 0 ≤ p then
        (max 0 (printableCharacterCount (if h then ctx.htmlToPlain t else t) - p)).toNat
      else 0 := by
  rw [expectedTrace, leftArrowCount_cons_backspaces, leftArrowCount_append]
  split <;> simp [typeSpecTrace_no_left, pasteSpecTrace_no_left, cursorSpecTrace_left]

theorem backspacesSynthesized_append (a b : List Event) :
    backspacesSynthesized (a ++ b) = backspacesSynthesized a + backspacesSynthesized b := by
  simp [backspacesSynthesized]

theorem typeSpecTrace_no_bs (held : List Nat) (d : Int) (text : UStr) :
    backspacesSynthesized (typeSpecTrace held d text) = 0 := by
  rw [backspacesSynthesized]
  apply List.sum_eq_zero
  intro x hx
  obtain ⟨e, he, rfl⟩ := List.mem_map.mp hx
  rcases mem_typeSpecTrace he with ⟨k, rfl⟩ | ⟨k, rfl⟩ | rfl | ⟨u, rfl⟩ | ⟨ms, rfl⟩ <;> rfl

theorem pasteSpecTrace_no_bs (held : List Nat) (isHtml : Bool) (t : UStr) :
    backspacesSynthesized (pasteSpecTrace held isHtml t) = 0 := by
  rw [backspacesSynthesized]
  apply List.sum_eq_zero
  intro x hx
  obtain ⟨e, he, rfl⟩ := List.mem_map.mp hx
  rcases mem_pasteSpecTrace he with rfl | rfl | rfl | ⟨k, rfl⟩ | ⟨k, rfl⟩ | rfl | rfl <;> rfl

theorem cursorSpecTrace_no_bs (held : List Nat) (basis : UStr) (p : Int) :
    backspacesSynthesized (cursorSpecTrace held basis p) = 0 := by
  rw [backspacesSynthesized]
  apply List.sum_eq_zero
  intro x hx
  obtain ⟨e, he, rfl⟩ := List.mem_map.mp hx
  rcases mem_cursorSpecTrace he with ⟨k, rfl⟩ | ⟨k, rfl⟩ | rfl <;> rfl

theorem expectedTrace_backspaces (ctx : Ctx) (c : Int) (t : UStr) (h : Bool) (p : Int)
    (m : Mods) :
    backspacesSynthesized (expectedTrace ctx c t h p m) = (max c 0).toNat := by
  have hcons : ∀ (n : Nat) (l : List Event),
      backspacesSynthesized (Event.backspaces n :: l) = n + backspacesSynthesized l := by
    intro n l; simp [backspacesSynthesized]
  rw [expectedTrace, hcons, backspacesSynthesized_append]
  split <;>
    simp [typeSpecTrace_no_bs, pasteSpecTrace_no_bs, cursorSpecTrace_no_bs]

theorem foldl_pccStep (l : List Nat) : ∀ (r : Int),
    l.foldl pccStep r = r - 2 * (zwjCount l : Int) - (fitzCount l : Int) := by
  induction l with
  | nil => intro r; simp [zwjCount, fitzCount]
  | cons c l ih =>
    intro r
    rw [List.foldl_cons, ih]
    by_cases hz : c = 0x200D
    · have hr : ¬(0x1F3FB ≤ c ∧ c ≤ 0x1F3FF) := by omega
      simp only [pccStep, hz, if_true, hr, if_false, zwjCount, fitzCount,
        List.count_cons, List.countP_cons]
      subst hz
      simp
      ring
    · by_cases hr : 0x1F3FB ≤ c ∧ c ≤ 0x1F3FF
      · simp only [pccStep, hz, if_false, hr, if_true, zwjCount, fitzCount,
          List.count_cons, List.countP_cons]
        simp [hz, hr]
        ring
      · simp only [pccStep, hz, if_false, hr, zwjCount, fitzCount,
          List.count_cons, List.countP_cons]
        simp [hz, hr]

/-- C2: for every input string, `printableCharacterCount` returns
`max(0, c - 2*z - f)` where `c` is the number of 32-bit code points, `z`
the number of zero-width-joiner code points and `f` the number of
Fitzpatrick-range code points; the result is never negative; the empty
string counts 0, "A" counts 1, an emoji ZWJ emoji sequence counts 1 and a
base emoji with a Fitzpatrick modifier counts 1.  The embedding is a total
function on arbitrary UTF-16 code-unit sequences, hence deterministic,
pure and total on any unicode input. -/
theorem printableCharacterCount_spec :
    (∀ s : UStr,
      printableCharacterCount s =
        max 0 (((toUcs4 s).length : Int) - 2 * (zwjCount (toUcs4 s) : Int) -
          (fitzCount (toUcs4 s) : Int)) ∧
      0 ≤ printableCharacterCount s) ∧
    printableCharacterCount [] = 0 ∧
    printableCharacterCount [0x41] = 1 ∧
    printableCharacterCount [0xD83D, 0xDC69, 0x200D, 0xD83D, 0xDC69] = 1 ∧
    printableCharacterCount [0xD83D, 0xDC4D, 0xD83C, 0xDFFB] = 1 := by
  refine ⟨fun s => ⟨?_, ?_⟩, by decide, by decide, by decide, by decide⟩
  · rw [printableCharacterCount, foldl_pccStep]
  · rw [printableCharacterCount]
    exact le_max_left 0 _

/-- C1: for every call to `performTextSubstitution`, under every exception
schedule, the keyboard hook's enabled state at exit equals its state at
entry, on the normal return path and on the exceptional (rethrow) path
alike: the hook is disabled at entry, its prior state is recorded, and it
is restored to exactly that prior state on every exit path. -/
theorem hook_restored_on_all_paths (ctx : Ctx) (charCount : Int) (newText : UStr)
    (isHtml : Bool) (cursorPos : Int) (s0 : St) :
    (resultState (performTextSubstitution ctx charCount newText isHtml cursorPos s0)).hook
      = s0.hook := by
  rw [performTextSubstitution]
  cases substitutionBody ctx charCount newText isHtml cursorPos { s0 with hook := false } <;>
    rfl

/-- C9: for every string, `snippetToPlainText` with the HTML flag unset is
the identity: no HTML stripping and no removal of the object replacement
character; both happen exactly on the HTML branch. -/
theorem snippetToPlainText_identity (htmlToPlain : UStr → UStr) (s : UStr) :
    snippetToPlainText htmlToPlain s false = s ∧
    snippetToPlainText htmlToPlain s true =
      (htmlToPlain s).filter (fun c => c != kObjectReplacementChar) :=
  ⟨rfl, rfl⟩

/-- C3: for every exception-free substitution whose foreground application is
sensitive, the replacement is delivered by the typing strategy: the typed
text is `snippetToPlainText` of the replacement (for rich content, the HTML
rendered to plain text with the object replacement character removed), each
character is typed inside its own modifier capture/restore pair followed by
the inter-keystroke wait, a line feed becoming a Return chord and any other
character a unicode key event (the shape recorded by `typeCharSpec`), and
no clipboard operation occurs: the clipboard state is untouched and the
trace gains no clipboard event. -/
theorem type_strategy_spec (ctx : Ctx) (hf : ctx.failAfter = none)
    (hsens : isSensitiveApplication ctx.sensitiveApps
      (getActiveExecutableFileName ctx.os) = true)
    (charCount : Int) (newText : UStr) (isHtml : Bool) (cursorPos : Int) (s0 : St) :
    performTextSubstitution ctx charCount newText isHtml cursorPos s0 =
      .ok { s0 with trace := s0.trace ++
        Event.backspaces (max charCount 0).toNat ::
          (typeSpecTrace (heldModifierKeys s0.mods) ctx.delayMs
              (snippetToPlainText ctx.htmlToPlain newText isHtml) ++
            cursorSpecTrace (heldModifierKeys s0.mods)
              (if isHtml then ctx.htmlToPlain newText else newText) cursorPos) } ∧
    snippetToPlainText ctx.htmlToPlain newText true =
      (ctx.htmlToPlain newText).filter (fun c => c != kObjectReplacementChar) ∧
    (resultState (performTextSubstitution ctx charCount newText isHtml cursorPos s0)).clip
      = s0.clip ∧
    ((resultState (performTextSubstitution ctx charCount newText isHtml
        cursorPos s0)).trace).countP isClipboardOp = (s0.trace).countP isClipboardOp := by
  have hmain := performTextSubstitution_none hf charCount newText isHtml cursorPos s0
  rw [expectedTrace, expectedClip] at hmain
  simp only [hsens, Bool.not_true, Bool.false_eq_true, if_false] at hmain
  refine ⟨hmain, rfl, ?_, ?_⟩
  · rw [hmain]
    rfl
  · rw [hmain]
    simp [resultState, List.countP_append, List.countP_cons, isClipboardOp,
      typeSpecTrace_no_clip, cursorSpecTrace_no_clip]

/-- C4: for every exception-free substitution whose foreground application is
not sensitive, the paste strategy runs: the clipboard is backed up strictly
before being overwritten (the backup holds the prior content), the
replacement is written in native form (`setHtml` for rich content,
`setText` otherwise), one modifier capture/restore pair brackets the
Control+V chord, and the clipboard restoration is only scheduled, 1000 ms
later, rather than performed: at exit the clipboard still holds the
replacement. -/
theorem paste_strategy_spec (ctx : Ctx) (hf : ctx.failAfter = none)
    (hsens : isSensitiveApplication ctx.sensitiveApps
      (getActiveExecutableFileName ctx.os) = false)
    (charCount : Int) (newText : UStr) (isHtml : Bool) (cursorPos : Int) (s0 : St) :
    performTextSubstitution ctx charCount newText isHtml cursorPos s0 =
      .ok { s0 with
        clip := ⟨if isHtml then ClipContent.richHtml newText else ClipContent.plainText newText,
          some s0.clip.content⟩,
        trace := s0.trace ++ Event.backspaces (max charCount 0).toNat ::
          (pasteSpecTrace (heldModifierKeys s0.mods) isHtml newText ++
            cursorSpecTrace (heldModifierKeys s0.mods)
              (if isHtml then ctx.htmlToPlain newText else newText) cursorPos) } ∧
    (resultState (performTextSubstitution ctx charCount newText isHtml
        cursorPos s0)).clip.backedUp = some s0.clip.content ∧
    (resultState (performTextSubstitution ctx charCount newText isHtml
        cursorPos s0)).clip.content =
      (if isHtml then ClipContent.richHtml newText else ClipContent.plainText newText) ∧
    pasteSpecTrace (heldModifierKeys s0.mods) isHtml newText =
      Event.clipboardBackup ::
        (if isHtml then Event.clipboardSetHtml newText else Event.clipboardSetText newText) ::
        ((heldModifierKeys s0.mods).map Event.keyUp ++
          [Event.keyDown VK_LCONTROL, Event.keyDownAndUp 0x56, Event.keyUp VK_LCONTROL] ++
          (heldModifierKeys s0.mods).map Event.keyDown ++
          [Event.scheduleClipboardRestore 1000]) := by
  have hmain := performTextSubstitution_none hf charCount newText isHtml cursorPos s0
  rw [expectedTrace, expectedClip] at hmain
  simp only [hsens, Bool.not_false, if_true] at hmain
  refine ⟨hmain, ?_, ?_, rfl⟩
  · rw [hmain]
    rfl
  · rw [hmain]
    rfl

/-- C5: for every exception-free substitution call, a negative cursor offset
synthesizes no Left-arrow event, a non-negative one synthesizes exactly
`max(0, printableCharacterCount(plain-text rendering of the replacement) -
offset)` Left-arrow chords, and the whole run of Left-arrow presses is
bracketed by a single modifier capture/restore pair (the shape of
`cursorSpecTrace`); an offset of 2 for a replacement of printable count 5
gives exactly 3 Left-arrow events. -/
theorem cursor_repositioning_spec (htmlToPlain : UStr → UStr) (sensitiveApps : List UStr)
    (os : OsState) (delayMs : Int) (charCount : Int) (newText : UStr) (isHtml : Bool)
    (cursorPos : Int) (s0 : St) :
    (resultState (performTextSubstitution ⟨none, htmlToPlain, sensitiveApps, os, delayMs⟩
        charCount newText isHtml cursorPos s0)).trace
      = s0.trace ++ expectedTrace ⟨none, htmlToPlain, sensitiveApps, os, delayMs⟩
          charCount newText isHtml cursorPos s0.mods ∧
    leftArrowCount (expectedTrace ⟨none, htmlToPlain, sensitiveApps, os, delayMs⟩
        charCount newText isHtml cursorPos s0.mods) =
      (if 0 ≤ cursorPos then
        (max 0 (printableCharacterCount (if isHtml then htmlToPlain newText else newText)
          - cursorPos)).toNat
      else 0) ∧
    cursorSpecTrace (heldModifierKeys s0.mods)
        (if isHtml then htmlToPlain newText else newText) cursorPos =
      (if 0 ≤ cursorPos then
        (heldModifierKeys s0.mods).map Event.keyUp ++
          List.replicate
            (max 0 (printableCharacterCount (if isHtml then htmlToPlain newText else newText)
              - cursorPos)).toNat (Event.keyDownAndUp VK_LEFT) ++
          (heldModifierKeys s0.mods).map Event.keyDown
      else []) ∧
    leftArrowCount (cursorSpecTrace [] helloStr 2) = 3 := by
  refine ⟨?_, expectedTrace_left _ charCount newText isHtml cursorPos s0.mods, rfl, by decide⟩
  rw [performTextSubstitution_none rfl]
  rfl

/-- C6: `backupAndReleaseModifierKeys` synthesizes a key-up for exactly the
tracked modifier keys that are physically down and records exactly those
keys, in the order of the `modifierKeys` list, with an empty snapshot when
none is held; `restoreModifierKeys` synthesizes a key-down for every key of
the snapshot in recorded order; and a capture immediately followed by the
restore leaves the physical modifier state unchanged. -/
theorem modifier_capture_restore_spec (htmlToPlain : UStr → UStr)
    (sensitiveApps : List UStr) (os : OsState) (delayMs : Int) (s : St) :
    backupAndReleaseModifierKeys ⟨none, htmlToPlain, sensitiveApps, os, delayMs⟩ s =
      .ok (heldModifierKeys s.mods,
        { s with mods := releaseList s.mods (heldModifierKeys s.mods),
                 trace := s.trace ++ (heldModifierKeys s.mods).map Event.keyUp }) ∧
    heldModifierKeys s.mods = modifierKeys.filter (fun k => s.mods k) ∧
    heldModifierKeys noKeyHeld = [] ∧
    (∀ (keys : List Nat) (s' : St),
      restoreModifierKeys ⟨none, htmlToPlain, sensitiveApps, os, delayMs⟩ keys s' =
        .ok { s' with mods := pressList s'.mods keys,
                      trace := s'.trace ++ keys.map Event.keyDown }) ∧
    (resultState (modifierRoundTrip ⟨none, htmlToPlain, sensitiveApps, os, delayMs⟩ s)).mods
      = s.mods ∧
    (resultState (modifierRoundTrip ⟨none, htmlToPlain, sensitiveApps, os, delayMs⟩ s)).trace
      = s.trace ++ (heldModifierKeys s.mods).map Event.keyUp ++
          (heldModifierKeys s.mods).map Event.keyDown := by
  refine ⟨backupAndReleaseModifierKeys_none rfl s, rfl, rfl,
    fun keys s' => restoreModifierKeys_none rfl keys s', ?_, ?_⟩
  · rw [modifierRoundTrip, backupAndReleaseModifierKeys_none rfl, ok_bind,
      restoreModifierKeys_none rfl]
    simp [resultState, roundtrip_mods]
  · rw [modifierRoundTrip, backupAndReleaseModifierKeys_none rfl, ok_bind,
      restoreModifierKeys_none rfl]
    simp [resultState, List.append_assoc]

/-- C7: for every exception-free substitution call, the erasing step
synthesizes exactly `max(charCount, 0)` backspaces, and no other step of
the call synthesizes any backspace; in particular `charsToErase = -5`
produces zero backspace synthesis instead of an error. -/
theorem backspace_clamp_spec (htmlToPlain : UStr → UStr) (sensitiveApps : List UStr)
    (os : OsState) (delayMs : Int) (charCount : Int) (newText : UStr) (isHtml : Bool)
    (cursorPos : Int) (s0 : St) :
    (resultState (performTextSubstitution ⟨none, htmlToPlain, sensitiveApps, os, delayMs⟩
        charCount newText isHtml cursorPos s0)).trace
      = s0.trace ++ expectedTrace ⟨none, htmlToPlain, sensitiveApps, os, delayMs⟩
          charCount newText isHtml cursorPos s0.mods ∧
    backspacesSynthesized (expectedTrace ⟨none, htmlToPlain, sensitiveApps, os, delayMs⟩
        charCount newText isHtml cursorPos s0.mods) = (max charCount 0).toNat ∧
    (∃ rest, expectedTrace ⟨none, htmlToPlain, sensitiveApps, os, delayMs⟩
        (-5) newText isHtml cursorPos s0.mods = Event.backspaces 0 :: rest) := by
  have h5 : ((max (-5 : Int) 0).toNat) = 0 := by decide
  refine ⟨?_, expectedTrace_backspaces _ charCount newText isHtml cursorPos s0.mods,
    ⟨_, by rw [expectedTrace, h5]⟩⟩
  rw [performTextSubstitution_none rfl]
  rfl

/-- C8: `getActiveExecutableFileName` returns the empty (null) string, and
does not raise, when `OpenProcess` or the module-file-name query fails; the
empty name is forwarded to the sensitivity check, which treats it as not
sensitive, so the substitution proceeds on the paste-strategy branch
instead of aborting. -/
theorem unresolved_exe_spec (htmlToPlain : UStr → UStr) (sensitiveApps : List UStr)
    (delayMs : Int) (os : OsState) (charCount : Int) (newText : UStr) (isHtml : Bool)
    (cursorPos : Int) (s0 : St)
    (hos : os.openProcessOk = false ∨ os.moduleFileNameOk = false) :
    getActiveExecutableFileName os = [] ∧
    isSensitiveApplication sensitiveApps [] = false ∧
    performTextSubstitution ⟨none, htmlToPlain, sensitiveApps, os, delayMs⟩
        charCount newText isHtml cursorPos s0 =
      .ok { s0 with
        clip := ⟨if isHtml then ClipContent.richHtml newText else ClipContent.plainText newText,
          some s0.clip.content⟩,
        trace := s0.trace ++ Event.backspaces (max charCount 0).toNat ::
          (pasteSpecTrace (heldModifierKeys s0.mods) isHtml newText ++
            cursorSpecTrace (heldModifierKeys s0.mods)
              (if isHtml then htmlToPlain newText else newText) cursorPos) } := by
  have hexe : getActiveExecutableFileName os = [] := by
    rcases hos with h | h
    · simp [getActiveExecutableFileName, h]
    · rcases hop : os.openProcessOk <;> simp [getActiveExecutableFileName, hop, h]
  have hempty : isSensitiveApplication sensitiveApps [] = false := by
    simp [isSensitiveApplication]
  have hsens : isSensitiveApplication sensitiveApps (getActiveExecutableFileName os)
      = false := by rw [hexe]; exact hempty
  have hmain := @performTextSubstitution_none
    ⟨none, htmlToPlain, sensitiveApps, os, delayMs⟩ rfl
    charCount newText isHtml cursorPos s0
  rw [expectedTrace, expectedClip] at hmain
  simp only [hsens, Bool.not_false, if_true] at hmain
  exact ⟨hexe, hempty, hmain⟩

/-- C10: the repositioning step computes the Left-arrow count from the HTML
rendered to plain text without removing the object replacement character,
while the typed text of the typing strategy has it removed: in a concrete
sensitive-application run whose HTML rendering is A, U+FFFC, B, the typed
characters are 2 but the 3 Left-arrow chords are computed over a 3-unit
basis, longer than the typed text. -/
theorem repositioning_basis_mismatch :
    (resultState (performTextSubstitution ctxImageSample 0 [0x78] true 0 sampleStateA)).trace =
      [Event.backspaces 0, Event.unicodeKeyDownAndUp 0x41, Event.unicodeKeyDownAndUp 0x42,
       Event.keyDownAndUp VK_LEFT, Event.keyDownAndUp VK_LEFT, Event.keyDownAndUp VK_LEFT] ∧
    isSensitiveApplication ctxImageSample.sensitiveApps
      (getActiveExecutableFileName ctxImageSample.os) = true ∧
    ctxImageSample.htmlToPlain [0x78] = [0x41, kObjectReplacementChar, 0x42] ∧
    snippetToPlainText ctxImageSample.htmlToPlain [0x78] true = [0x41, 0x42] ∧
    printableCharacterCount (ctxImageSample.htmlToPlain [0x78]) = 3 ∧
    unicodeKeyCount (resultState (performTextSubstitution ctxImageSample 0 [0x78] true 0
      sampleStateA)).trace = 2 ∧
    leftArrowCount (resultState (performTextSubstitution ctxImageSample 0 [0x78] true 0
      sampleStateA)).trace = 3 ∧
    (snippetToPlainText ctxImageSample.htmlToPlain [0x78] true).length <
      (ctxImageSample.htmlToPlain [0x78]).length := by
  decide

/-- Witness for C3: a concrete sensitive-application run ("a" is in the
sensitive list, the rich replacement renders to "H", line feed). -/
theorem type_strategy_spec_witness :
    isSensitiveApplication ctxTypeSample.sensitiveApps
        (getActiveExecutableFileName ctxTypeSample.os) = true ∧
    performTextSubstitution ctxTypeSample 0 [0x3C] true (-1) sampleStateA =
      .ok { sampleStateA with trace := (sampleStateA.trace ++
        Event.backspaces (max (0 : Int) 0).toNat ::
          (typeSpecTrace (heldModifierKeys sampleStateA.mods) ctxTypeSample.delayMs
              (snippetToPlainText ctxTypeSample.htmlToPlain [0x3C] true) ++
            cursorSpecTrace (heldModifierKeys sampleStateA.mods)
              (ctxTypeSample.htmlToPlain [0x3C]) (-1))) } :=
  ⟨by decide,
    (type_strategy_spec ctxTypeSample rfl (by decide) 0 [0x3C] true (-1) sampleStateA).1⟩

/-- Witness for C4: the concrete scenario of a non-sensitive application,
plain replacement "hello", three characters to erase, no cursor offset. -/
theorem paste_strategy_spec_witness :
    isSensitiveApplication ctxPasteSample.sensitiveApps
        (getActiveExecutableFileName ctxPasteSample.os) = false ∧
    performTextSubstitution ctxPasteSample 3 helloStr false (-1) sampleStateA =
      .ok { sampleStateA with
        clip := ⟨ClipContent.plainText helloStr, some sampleStateA.clip.content⟩,
        trace := (sampleStateA.trace ++ Event.backspaces (max (3 : Int) 0).toNat ::
          (pasteSpecTrace (heldModifierKeys sampleStateA.mods) false helloStr ++
            cursorSpecTrace (heldModifierKeys sampleStateA.mods) helloStr (-1))) } :=
  ⟨by decide,
    (paste_strategy_spec ctxPasteSample rfl (by decide) 3 helloStr false (-1) sampleStateA).1⟩

/-- Witness for C8: a concrete run in which `OpenProcess` fails, so the
executable name resolves to the null string and the paste branch runs. -/
theorem unresolved_exe_spec_witness :
    ((⟨false, true, [0x62]⟩ : OsState).openProcessOk = false ∨
      (⟨false, true, [0x62]⟩ : OsState).moduleFileNameOk = false) ∧
    (getActiveExecutableFileName ⟨false, true, [0x62]⟩ = [] ∧
     isSensitiveApplication [[0x61]] [] = false ∧
     performTextSubstitution ⟨none, fun _ => [], [[0x61]], ⟨false, true, [0x62]⟩, 0⟩
         1 [0x68] false (-1) sampleStateA =
       .ok { sampleStateA with
         clip := ⟨ClipContent.plainText [0x68], some sampleStateA.clip.content⟩,
         trace := (sampleStateA.trace ++ Event.backspaces (max (1 : Int) 0).toNat ::
           (pasteSpecTrace (heldModifierKeys sampleStateA.mods) false [0x68] ++
             cursorSpecTrace (heldModifierKeys sampleStateA.mods) [0x68] (-1))) }) :=
  ⟨Or.inl rfl,
    unresolved_exe_spec (fun _ => []) [[0x61]] 0 ⟨false, true, [0x62]⟩ 1 [0x68]
      false (-1) sampleStateA (Or.inl rfl)⟩

end Beeftext
